import Mathlib

/-
Verification development for the `webscrapv1` crawler (src/deep.py and
src/main.py).  Python strings are modelled as `List Char`, Python sets of
strings as duplicate-free lists, and the network boundary
(`scrape_page_content`) as an explicit oracle `fetch : Str → Option Page`.
Where the source iterates over a Python `set` (whose iteration order is
unspecified), the iteration order is an explicit parameter constrained to be
a permutation of the collected elements.
-/

set_option maxRecDepth 16384

namespace WebScrap

/-- Python `str` modelled as a list of characters. -/
abbrev Str := List Char

/-- Model of Python `str.lower()` (per-character lowering). -/
def pyLower (s : Str) : Str := s.map Char.toLower

/-- `startsWithL pat s` : `pat` is an initial segment of `s`. -/
def startsWithL : Str → Str → Bool
  | [], _ => true
  | _ :: _, [] => false
  | p :: ps, x :: xs => p == x && startsWithL ps xs

/-- Model of Python `pat in s` (substring occurrence). -/
def hasSub (pat : Str) : Str → Bool
  | [] => startsWithL pat []
  | x :: xs => startsWithL pat (x :: xs) || hasSub pat xs

/-- Model of Python `s.endswith(pat)`. -/
def endsWithL (pat s : Str) : Bool := startsWithL pat.reverse s.reverse

/-- Model of Python `"; ".join(l)`. -/
def joinSemi (l : List Str) : Str := List.intercalate "; ".data l

/-- Model of Python `", ".join(l)`. -/
def joinComma (l : List Str) : Str := List.intercalate ", ".data l

/-- First-occurrence deduplication, helper (elements of `seen` dropped). -/
def dedupFOAux (seen : List Str) : List Str → List Str
  | [] => []
  | x :: xs => if x ∈ seen then dedupFOAux seen xs else x :: dedupFOAux (x :: seen) xs

/-- Canonical duplicate-free representative of a Python set of strings,
keeping first occurrences in collection order. -/
def dedupFO (l : List Str) : List Str := dedupFOAux [] l

/-- Model of Python set-`update`: insert each element not already present. -/
def insertAll (acc xs : List Str) : List Str :=
  xs.foldl (fun a x => if x ∈ a then a else a ++ [x]) acc

/-! ## URL model (`urllib.parse` boundary)

A parsed URL keeps the pieces `is_valid_internal_link` inspects: the scheme,
the netloc and the remainder; its raw string form is recovered by `urlStr`.
An anchor's `href` is either relative (resolved by `urljoin` against the base,
inheriting the base netloc) or absolute (returned by `urljoin` as itself,
which is faithful whenever the absolute URL carries a nonempty netloc). -/

structure Url where
  scheme : Str
  netloc : Str
  rest : Str
deriving DecidableEq, Repr

/-- Raw string form of a parsed URL. -/
def urlStr (u : Url) : Str := u.scheme ++ "://".data ++ u.netloc ++ u.rest

/-- An anchor `href`: root-relative path or absolute URL. -/
inductive Href where
  | rel (path : Str)
  | abs (u : Url)
deriving DecidableEq, Repr

/-- Model of `urljoin(base_url, href)` (src/deep.py line 114). -/
def resolve (base : Url) : Href → Url
  | .rel p => { scheme := base.scheme, netloc := base.netloc, rest := p }
  | .abs u => u

/-- `href` is relative. -/
def Href.isRel : Href → Prop
  | .rel _ => True
  | .abs _ => False

/-- Well-formedness: an absolute `href` carries a nonempty netloc. -/
def Href.absNetlocNonempty : Href → Prop
  | .rel _ => True
  | .abs u => u.netloc ≠ []

/-- `avoid_extensions` of `is_valid_internal_link` (src/deep.py line 96). -/
def avoid_extensions : List Str :=
  [".pdf".data, ".jpg".data, ".jpeg".data, ".png".data, ".gif".data,
   ".zip".data, ".doc".data, ".docx".data, ".xls".data, ".xlsx".data]

/-- `avoid_patterns` of `is_valid_internal_link` (src/deep.py line 100). -/
def avoid_patterns : List Str :=
  ["#".data, "javascript:".data, "mailto:".data, "tel:".data,
   "whatsapp:".data, "linkedin.com".data, "facebook.com".data, "twitter.com".data]

/-- Model of `is_valid_internal_link(url, base_domain)` (src/deep.py 87-106):
the parsed netloc must equal the base netloc or be empty, the lowered URL
must not end in a document/image extension, and must not contain a
non-navigable pattern. -/
def is_valid_internal_link (u : Url) (base : Url) : Bool :=
  (u.netloc == base.netloc || u.netloc == ([] : Str)) &&
  !(avoid_extensions.any fun e => endsWithL e (pyLower (urlStr u))) &&
  !(avoid_patterns.any fun pt => hasSub pt (pyLower (urlStr u)))

/-- The collected set of valid internal links of a document, as the
duplicate-free list in anchor-discovery order (src/deep.py 110-117:
`internal_links.add(full_url)` over `soup.find_all('a', href=True)`). -/
def linkSet (anchors : List Href) (base : Url) : List Str :=
  dedupFO (((anchors.map (resolve base)).filter
    (fun u => is_valid_internal_link u base)).map urlStr)

/-- `priority_keywords` (src/deep.py line 120). -/
def priority_keywords : List Str :=
  ["about".data, "service".data, "product".data, "contact".data,
   "solution".data, "portfolio".data, "client".data, "team".data]

/-- A link URL is a priority link: some keyword occurs in its lowered text
(src/deep.py line 125). -/
def isPriorityLink (l : Str) : Bool :=
  priority_keywords.any fun k => hasSub k (pyLower l)

/-- The partition loop of `get_internal_links` (src/deep.py 124-128):
appends each link to the prioritized or to the other list. -/
def partitionLinks (enum : List Str) : List Str × List Str :=
  enum.foldl
    (fun po l => if isPriorityLink l then (po.1 ++ [l], po.2) else (po.1, po.2 ++ [l]))
    ([], [])

/-- Model of `get_internal_links` (src/deep.py 108-130) downstream of the set
iteration: `enum` is the iteration order of the Python set `internal_links`
(an arbitrary permutation of `linkSet anchors base`); the result is the
prioritized links followed by the others, truncated to `max_links`. -/
def get_internal_links (enum : List Str) (max_links : Nat) : List Str :=
  ((partitionLinks enum).1 ++ (partitionLinks enum).2).take max_links

/-- The claim's reading of `get_internal_links` (for refinement comparison):
identical pipeline, but with the set enumerated in anchor-discovery order. -/
def get_internal_links_spec (anchors : List Href) (base : Url) (max_links : Nat) : List Str :=
  get_internal_links (linkSet anchors base) max_links

/-! ## SEO metadata and score (src/main.py) -/

/-- The fields of the `seo_data` dict that `calculate_seo_score` consumes
(src/main.py 108-131).  `og_tags` is the Open Graph dict as a pair list,
`schema_types` the structured-data type list. -/
structure SeoData where
  meta_title : Str
  meta_title_length : Nat
  meta_description : Str
  meta_description_length : Nat
  h1_tags : List Str
  img_with_alt : Nat
  img_without_alt : Nat
  internal_links : Nat
  word_count : Nat
  https : Bool
  mobile_viewport : Bool
  og_tags : List (Str × Str)
  schema_types : List Str
deriving DecidableEq, Repr

/-- Model of `calculate_seo_score(seo_data)` (src/main.py 206-244): Python
truthiness of strings/lists/dicts is nonemptiness. -/
def calculate_seo_score (d : SeoData) : Nat :=
  let score :=
    (if d.meta_title ≠ [] then
       (if 30 ≤ d.meta_title_length ∧ d.meta_title_length ≤ 60 then 15 else 5)
     else 0)
    + (if d.meta_description ≠ [] then
        (if 120 ≤ d.meta_description_length ∧ d.meta_description_length ≤ 160 then 15 else 5)
      else 0)
    + (if d.https then 10 else 0)
    + (if d.mobile_viewport then 10 else 0)
    + (if d.h1_tags ≠ [] then 10 else 0)
    + (if d.img_without_alt < d.img_with_alt then 10 else 0)
    + (if d.schema_types ≠ [] then 10 else 0)
    + (if d.og_tags ≠ [] then 10 else 0)
    + (if 300 ≤ d.word_count then 10 else 0)
    + (if 0 < d.internal_links then 10 else 0)
  min score 100

/-- The spec's fixed-weight rubric, written from the spec sentence: each
criterion contributes its weight, title/description contribute 15 when in
range and otherwise 5 when present; the sum is capped at 100. -/
def seoRubric (d : SeoData) : Nat :=
  min
    ((if d.meta_title ≠ [] ∧ 30 ≤ d.meta_title_length ∧ d.meta_title_length ≤ 60 then 15
      else if d.meta_title ≠ [] then 5 else 0)
     + (if d.meta_description ≠ [] ∧ 120 ≤ d.meta_description_length ∧
            d.meta_description_length ≤ 160 then 15
        else if d.meta_description ≠ [] then 5 else 0)
     + (if d.https then 10 else 0)
     + (if d.mobile_viewport then 10 else 0)
     + (if d.h1_tags ≠ [] then 10 else 0)
     + (if d.img_without_alt < d.img_with_alt then 10 else 0)
     + (if d.schema_types ≠ [] then 10 else 0)
     + (if d.og_tags ≠ [] then 10 else 0)
     + (if 300 ≤ d.word_count then 10 else 0)
     + (if 0 < d.internal_links then 10 else 0))
    100

/-! ## The deep crawl (`scrape_company_deep`, src/deep.py 173-351)

A successful fetch of a page is abstracted as a `Page`: the raw response
text together with the outputs of the per-page extractors that the crawl body
applies to the parsed document (`extract_emails`/`extract_phones` on the text,
the about/section/address candidate texts in the order the body discovers
them, and the `get_internal_links` output for the page, which the source caps
at `max_links=5`).  The network is the oracle `fetch : Str → Option Page`
(`None` = fetch failure, src/deep.py 132-145). -/

structure Page where
  text : Str
  emails : List Str
  phones : List Str
  nameTag : Option Str
  aboutTexts : List Str
  serviceSecs : List Str
  listItems : List Str
  productSecs : List Str
  addressCands : List Str
  clientSecs : List Str
  teamSecs : List Str
  links : List Str
deriving Repr

/-- The mutable crawl state of `scrape_company_deep`: the accumulator sets
and lists, the `company_info` fields, the visited set, the queue and the page
counter; `attempts` records the fetched URLs in order, `deqs`/`enqs` record
the dequeue/enqueue traces of the `urls_to_visit` deque. -/
structure CrawlState where
  emails : List Str
  phones : List Str
  texts : List Str
  services : List Str
  addresses : List Str
  name : Str
  about : Str
  products : Str
  clients : Str
  team : Str
  visited : List Str
  queue : List Str
  scraped : Nat
  attempts : List Str
  deqs : List Str
  enqs : List Str
deriving Repr

/-- The `"N/A"` placeholder. -/
def naStr : Str := "N/A".data

/-- One about-candidate update (src/deep.py 247-248): the candidate replaces
the stored text when it is nonempty and longer than the stored text, and is
then truncated to 500 characters. -/
def aboutUpdate (stored cand : Str) : Str :=
  if cand ≠ [] ∧ stored.length < cand.length then cand.take 500 else stored

/-- Section-text collection used by the services/products/clients/team
branches: take the first `n` sections, keep the nonempty texts, truncate each
to `cap` characters. -/
def cappedSecs (n cap : Nat) (secs : List Str) : List Str :=
  ((secs.take n).filter (fun t => t ≠ [])).map (fun t => t.take cap)

/-- Processing of one successfully fetched page (src/deep.py 217-305): bump
the counter, merge emails/phones/text when the page text is truthy, take the
company name from the first page, and apply the URL-keyword classified merge
rules. -/
def processPage (u : Str) (p : Page) (s : CrawlState) : CrawlState :=
  let scraped' := s.scraped + 1
  let ul := pyLower u
  let hasText := p.text ≠ []
  let prods := cappedSecs 3 200 p.productSecs
  let clis := cappedSecs 2 200 p.clientSecs
  let tms := cappedSecs 2 200 p.teamSecs
  { s with
    scraped := scraped',
    emails := if hasText then insertAll s.emails p.emails else s.emails,
    phones := if hasText then insertAll s.phones p.phones else s.phones,
    texts := if hasText then s.texts ++ [p.text] else s.texts,
    name :=
      if scraped' = 1 then
        (match p.nameTag with
         | some t => t.take 100
         | none => s.name)
      else s.name,
    about :=
      if hasSub "about".data ul ∨ scraped' = 1 then
        p.aboutTexts.foldl aboutUpdate s.about
      else s.about,
    services :=
      if hasSub "service".data ul ∨ hasSub "solution".data ul then
        (s.services ++ cappedSecs 3 200 p.serviceSecs) ++ p.listItems
      else s.services,
    products :=
      if hasSub "product".data ul ∧ prods ≠ [] then joinSemi (prods.take 5)
      else s.products,
    addresses :=
      if hasSub "contact".data ul then
        s.addresses ++ p.addressCands.filter (fun t => 20 < t.length ∧ t.length < 200)
      else s.addresses,
    clients :=
      if (hasSub "client".data ul ∨ hasSub "portfolio".data ul) ∧ clis ≠ [] then
        joinSemi (clis.take 3)
      else s.clients,
    team :=
      if (hasSub "team".data ul ∨ hasSub "people".data ul) ∧ tms ≠ [] then
        joinSemi (tms.take 2)
      else s.team }

/-- The tail of a successful iteration (src/deep.py 217-312): process the
page and, when the budget is not yet exhausted, enqueue the page's
not-yet-visited internal links (`get_internal_links` is called with
`max_links=5`). -/
def crawlSuccess (maxPages : Nat) (u : Str) (p : Page) (sm : CrawlState) : CrawlState :=
  let s1 := processPage u p sm
  if s1.scraped < maxPages then
    let newLinks := (p.links.take 5).filter (fun l => ¬ l ∈ s1.visited)
    { s1 with queue := s1.queue ++ newLinks, enqs := s1.enqs ++ newLinks }
  else s1

/-- One iteration of the crawl loop body (src/deep.py 200-312): dequeue, skip
if visited, else mark visited and fetch; on failure continue, on success
process the page via `crawlSuccess`. -/
def crawlStep (fetch : Str → Option Page) (maxPages : Nat) (s : CrawlState) : CrawlState :=
  match s.queue with
  | [] => s
  | u :: rest =>
    if u ∈ s.visited then
      { s with queue := rest, deqs := s.deqs ++ [u] }
    else
      match fetch u with
      | none =>
          { s with queue := rest, deqs := s.deqs ++ [u],
                   visited := s.visited ++ [u], attempts := s.attempts ++ [u] }
      | some p =>
          crawlSuccess maxPages u p
            { s with queue := rest, deqs := s.deqs ++ [u],
                     visited := s.visited ++ [u], attempts := s.attempts ++ [u] }

/-- The crawl loop (src/deep.py 200: `while urls_to_visit and pages_scraped <
max_pages`), fuelled; `crawlFuel` below always suffices. -/
def crawlGo (fetch : Str → Option Page) (maxPages : Nat) : Nat → CrawlState → CrawlState
  | 0, s => s
  | Nat.succ f, s =>
    if s.queue ≠ [] ∧ s.scraped < maxPages then
      crawlGo fetch maxPages f (crawlStep fetch maxPages s)
    else s

/-- The initial crawl state (src/deep.py 180-198). -/
def crawlInit (base_url company_name : Str) : CrawlState :=
  { emails := [], phones := [], texts := [], services := [], addresses := [],
    name := company_name, about := naStr, products := naStr, clients := naStr,
    team := naStr, visited := [], queue := [base_url], scraped := 0,
    attempts := [], deqs := [], enqs := [base_url] }

/-- Termination measure of the loop: every iteration strictly decreases
`queue.length + 6 * (maxPages - scraped)`, so this fuel completes the crawl. -/
def crawlFuel (maxPages : Nat) : Nat := 6 * maxPages + 2

/-- The fully-run crawl state of `scrape_company_deep`. -/
def crawlRun (fetch : Str → Option Page) (maxPages : Nat) (base_url company_name : Str) : CrawlState :=
  crawlGo fetch maxPages (crawlFuel maxPages) (crawlInit base_url company_name)

/-- The `"Emails"` entries listed in the final record (src/deep.py 340). -/
def emailsListed (s : CrawlState) : List Str := s.emails.take 5

/-- The `"Phones"` entries listed in the final record (src/deep.py 341). -/
def phonesListed (s : CrawlState) : List Str := s.phones.take 5

/-- `social_platforms` (src/deep.py 321). -/
def social_platforms : List Str :=
  ["facebook".data, "twitter".data, "linkedin".data, "instagram".data, "youtube".data]

/-- The social-media merge over the collected page texts (src/deep.py
320-329): first found wins per platform; `find platform text` abstracts the
per-platform regex `findall`. -/
def socialMerge (find : Str → Str → List Str) (texts : List Str) : List (Str × Str) :=
  texts.foldl
    (fun acc text =>
      social_platforms.foldl
        (fun acc2 pf =>
          if acc2.any (fun kv => kv.1 == pf) then acc2
          else
            match find pf text with
            | [] => acc2
            | m :: _ => acc2 ++ [(pf, m)])
        acc)
    []

/-- The final result record of `scrape_company_deep` (src/deep.py 332-349). -/
structure CompanyRecord where
  url : Str
  source : Str
  pagesScraped : Nat
  companyName : Str
  about : Str
  services : Str
  products : Str
  emailsField : Str
  phonesField : Str
  address : Str
  clients : Str
  teamInfo : Str
  socialMedia : Str
  totalEmails : Nat
  totalPhones : Nat
  pagesVisited : List Str
deriving Repr

/-- Compilation of the final results (src/deep.py 314-349). -/
def finalize (find : Str → Str → List Str) (base_url source : Str) (s : CrawlState) : CompanyRecord :=
  let sm := socialMerge find s.texts
  { url := base_url,
    source := source,
    pagesScraped := s.scraped,
    companyName := s.name,
    about := s.about,
    services :=
      if s.services ≠ [] then joinSemi ((dedupFO s.services).take 15) else naStr,
    products := s.products,
    emailsField := if s.emails ≠ [] then joinSemi (emailsListed s) else naStr,
    phonesField := if s.phones ≠ [] then joinSemi (phonesListed s) else naStr,
    address :=
      match s.addresses with
      | [] => naStr
      | a :: _ => a,
    clients := s.clients,
    teamInfo := s.team,
    socialMedia :=
      if sm ≠ [] then joinComma (sm.map fun kv => kv.1 ++ ": ".data ++ kv.2)
      else naStr,
    totalEmails := s.emails.length,
    totalPhones := s.phones.length,
    pagesVisited := s.visited }

/-- Model of `scrape_company_deep(base_url, company_name, source, max_pages)`
(src/deep.py 173-351), over the fetch oracle and the social-regex oracle. -/
def scrape_company_deep (fetch : Str → Option Page) (find : Str → Str → List Str)
    (base_url company_name source : Str) (max_pages : Nat) : CompanyRecord :=
  finalize find base_url source (crawlRun fetch max_pages base_url company_name)

/-! ## Crawl invariants -/

/-- The structural crawl invariant: the visited set records exactly the
attempted (fetched) URLs without duplicates, the scraped count never exceeds
the attempts nor the page budget, the deque behaves FIFO (the enqueue trace
is the dequeue trace followed by the current queue), and the email/phone
accumulators are duplicate-free sets. -/
def CrawlInv (maxPages : Nat) (s : CrawlState) : Prop :=
  s.visited = s.attempts ∧ s.visited.Nodup ∧ s.scraped ≤ s.attempts.length ∧
  s.scraped ≤ maxPages ∧ s.enqs = s.deqs ++ s.queue ∧
  s.emails.Nodup ∧ s.phones.Nodup

/-- State predicate for a crawl in which no page has been scraped: every
extraction accumulator is still in its initial placeholder state. -/
def Untouched (s : CrawlState) : Prop :=
  s.scraped = 0 ∧ s.emails = [] ∧ s.phones = [] ∧ s.texts = [] ∧
  s.services = [] ∧ s.addresses = [] ∧ s.about = naStr ∧
  s.products = naStr ∧ s.clients = naStr ∧ s.team = naStr

/-- The claim's reading of the about-retention rule: keep the longest
candidate seen so far (first among equals), starting from the placeholder. -/
def longestCand (cands : List Str) : Str :=
  cands.foldl (fun acc c => if acc.length < c.length then c else acc) naStr

/-! ## Concrete inputs for counterexamples and witnesses -/

/-- Social-regex oracle finding nothing. -/
def noFind : Str → Str → List Str := fun _ _ => []

/-- A page with five outgoing internal links and no extractable content. -/
def pgC1 : Page :=
  { text := [], emails := [], phones := [], nameTag := none, aboutTexts := [],
    serviceSecs := [], listItems := [], productSecs := [], addressCands := [],
    clientSecs := [], teamSecs := [],
    links := ["a".data, "b".data, "c".data, "d".data, "e".data] }

/-- Oracle: the seed `"s"` fetches `pgC1`, every other fetch fails. -/
def fetchC1 : Str → Option Page := fun u => if u = "s".data then some pgC1 else none

/-- Base URL for the link-discovery examples. -/
def baseC2 : Url := { scheme := "https".data, netloc := "x.com".data, rest := "/".data }

/-- First discovered internal link. -/
def uPC2 : Url := { scheme := "https".data, netloc := "x.com".data, rest := "/p".data }

/-- Second discovered internal link. -/
def uQC2 : Url := { scheme := "https".data, netloc := "x.com".data, rest := "/q".data }

/-- Two same-domain anchors, discovered `/p` before `/q`. -/
def anchorsC2 : List Href := [.abs uPC2, .abs uQC2]

/-- A set-iteration order that reverses the discovery order. -/
def enumC2 : List Str := [urlStr uQC2, urlStr uPC2]

/-- The spec's perfect-score example metadata: title length 45, description
length 140, HTTPS, viewport, one H1, the only image alt-covered, one
structured-data type, one Open Graph tag, 350 words, two internal links. -/
def exSeo : SeoData :=
  { meta_title := List.replicate 45 't', meta_title_length := 45,
    meta_description := List.replicate 140 'd', meta_description_length := 140,
    h1_tags := ["h".data], img_with_alt := 1, img_without_alt := 0,
    internal_links := 2, word_count := 350, https := true, mobile_viewport := true,
    og_tags := [("title".data, "t".data)], schema_types := ["Organization".data] }

/-- Initial state with the single queued URL `"u"`. -/
def stC5 : CrawlState := crawlInit "u".data "n".data

/-- An about candidate of 502 characters. -/
def c1s : Str := List.replicate 502 'a'

/-- A shorter about candidate of 501 characters, still above the 500 cap. -/
def c2s : Str := List.replicate 501 'b'

/-- A page whose about extraction yields the 502-char and then the 501-char
candidate. -/
def pgC6 : Page :=
  { text := [], emails := [], phones := [], nameTag := none,
    aboutTexts := [c1s, c2s], serviceSecs := [], listItems := [],
    productSecs := [], addressCands := [], clientSecs := [], teamSecs := [],
    links := [] }

/-- Oracle: the seed `"s"` fetches `pgC6`, every other fetch fails. -/
def fetchC6 : Str → Option Page := fun u => if u = "s".data then some pgC6 else none

/-- Anchors for the C7 witness: one absolute same-domain link and one
relative link. -/
def anchorsC7 : List Href := [.abs uPC2, .rel "/r".data]

/-- A page contributing six distinct emails. -/
def pgC9 : Page :=
  { text := "x".data,
    emails := ["e1".data, "e2".data, "e3".data, "e4".data, "e5".data, "e6".data],
    phones := [], nameTag := none, aboutTexts := [], serviceSecs := [],
    listItems := [], productSecs := [], addressCands := [], clientSecs := [],
    teamSecs := [], links := [] }

/-- Oracle: the seed `"s"` fetches `pgC9`, every other fetch fails. -/
def fetchC9 : Str → Option Page := fun u => if u = "s".data then some pgC9 else none

/-- A page with one about candidate, fetched from a URL without `about`. -/
def pgC10 : Page :=
  { text := [], emails := [], phones := [], nameTag := none,
    aboutTexts := ["who we are text".data], serviceSecs := [], listItems := [],
    productSecs := [], addressCands := [], clientSecs := [], teamSecs := [],
    links := [] }

/-- Oracle: the URL `"u"` fetches `pgC10`, every other fetch fails. -/
def fetchC10 : Str → Option Page := fun u => if u = "u".data then some pgC10 else none

/-- Initial state for the C10 witness, queue `["u"]`, nothing scraped. -/
def stC10a : CrawlState := crawlInit "u".data "n".data

/-- A mid-crawl state for the C10 witness: one page already scraped and the
keyword-free URL `"u"` queued. -/
def stC10b : CrawlState := { crawlInit "u".data "n".data with scraped := 1 }

/-! ## Helper lemmas -/

@[simp]
theorem processPage_visited (u : Str) (p : Page) (s : CrawlState) :
    (processPage u p s).visited = s.visited := rfl

@[simp]
theorem processPage_queue (u : Str) (p : Page) (s : CrawlState) :
    (processPage u p s).queue = s.queue := rfl

@[simp]
theorem processPage_attempts (u : Str) (p : Page) (s : CrawlState) :
    (processPage u p s).attempts = s.attempts := rfl

@[simp]
theorem processPage_deqs (u : Str) (p : Page) (s : CrawlState) :
    (processPage u p s).deqs = s.deqs := rfl

@[simp]
theorem processPage_enqs (u : Str) (p : Page) (s : CrawlState) :
    (processPage u p s).enqs = s.enqs := rfl

@[simp]
theorem processPage_scraped (u : Str) (p : Page) (s : CrawlState) :
    (processPage u p s).scraped = s.scraped + 1 := rfl

theorem processPage_emails (u : Str) (p : Page) (s : CrawlState) :
    (processPage u p s).emails =
      if p.text ≠ [] then insertAll s.emails p.emails else s.emails := rfl

theorem processPage_phones (u : Str) (p : Page) (s : CrawlState) :
    (processPage u p s).phones =
      if p.text ≠ [] then insertAll s.phones p.phones else s.phones := rfl

theorem processPage_about (u : Str) (p : Page) (s : CrawlState) :
    (processPage u p s).about =
      if hasSub "about".data (pyLower u) ∨ s.scraped + 1 = 1 then
        p.aboutTexts.foldl aboutUpdate s.about
      else s.about := rfl

theorem insertAll_nodup : ∀ (xs acc : List Str), acc.Nodup → (insertAll acc xs).Nodup
  | [], _, h => h
  | x :: xs, acc, h => by
    show (insertAll (if x ∈ acc then acc else acc ++ [x]) xs).Nodup
    by_cases hx : x ∈ acc
    · rw [if_pos hx]; exact insertAll_nodup xs acc h
    · rw [if_neg hx]
      exact insertAll_nodup xs (acc ++ [x]) (by simp [List.nodup_append, h, hx])

theorem dedupFOAux_mem :
    ∀ (l seen : List Str) (x : Str), x ∈ dedupFOAux seen l ↔ x ∈ l ∧ x ∉ seen := by
  intro l
  induction l with
  | nil => intro seen x; simp [dedupFOAux]
  | cons y ys ih =>
    intro seen x
    by_cases hy : y ∈ seen
    · rw [dedupFOAux, if_pos hy, ih]
      constructor
      · rintro ⟨hmem, hns⟩; exact ⟨List.mem_cons_of_mem _ hmem, hns⟩
      · rintro ⟨hmem, hns⟩
        rcases List.mem_cons.mp hmem with hxy | hmem
        · exact absurd (hxy ▸ hy) hns
        · exact ⟨hmem, hns⟩
    · rw [dedupFOAux, if_neg hy]
      by_cases hxy : x = y
      · subst hxy; simp [hy]
      · simp only [List.mem_cons, hxy, false_or]
        rw [ih]
        simp [List.mem_cons, hxy]

theorem dedupFO_mem (l : List Str) (x : Str) : x ∈ dedupFO l ↔ x ∈ l := by
  rw [dedupFO, dedupFOAux_mem]; simp

theorem partitionLinks_general (enum : List Str) :
    ∀ po : List Str × List Str,
      enum.foldl
        (fun po l =>
          if isPriorityLink l then (po.1 ++ [l], po.2) else (po.1, po.2 ++ [l]))
        po
      = (po.1 ++ enum.filter isPriorityLink,
         po.2 ++ enum.filter (fun l => !isPriorityLink l)) := by
  induction enum with
  | nil => intro po; simp
  | cons x xs ih =>
    intro po
    by_cases hx : isPriorityLink x
    · simp only [List.foldl_cons, if_pos hx, ih, List.filter_cons, hx]
      simp [List.append_assoc]
    · simp only [List.foldl_cons, if_neg hx, ih, List.filter_cons,
        Bool.not_eq_true' .. ▸ rfl]
      simp [List.append_assoc, hx, List.filter_cons]

theorem partitionLinks_eq (enum : List Str) :
    partitionLinks enum =
      (enum.filter isPriorityLink, enum.filter (fun l => !isPriorityLink l)) := by
  rw [partitionLinks, partitionLinks_general]; simp

theorem crawlSuccess_inv {mp : Nat} {u : Str} {p : Page} {sm : CrawlState}
    (g : CrawlInv mp (processPage u p sm)) : CrawlInv mp (crawlSuccess mp u p sm) := by
  obtain ⟨g1, g2, g3, g4, g5, g6, g7⟩ := g
  simp only [crawlSuccess]
  split
  · refine ⟨g1, g2, g3, g4, ?_, g6, g7⟩
    show (processPage u p sm).enqs ++ _ = (processPage u p sm).deqs ++ ((processPage u p sm).queue ++ _)
    rw [g5, List.append_assoc]
  · exact ⟨g1, g2, g3, g4, g5, g6, g7⟩

theorem crawlStep_inv {fetch : Str → Option Page} {mp : Nat} {s : CrawlState}
    (h : CrawlInv mp s) (hlt : s.scraped < mp) : CrawlInv mp (crawlStep fetch mp s) := by
  obtain ⟨h1, h2, h3, h4, h5, h6, h7⟩ := h
  cases hq : s.queue with
  | nil =>
    simp only [crawlStep, hq]
    exact ⟨h1, h2, h3, h4, by rw [h5, hq], h6, h7⟩
  | cons u rest =>
    simp only [crawlStep, hq]
    by_cases hv : u ∈ s.visited
    · rw [if_pos hv]
      refine ⟨h1, h2, h3, h4, ?_, h6, h7⟩
      show s.enqs = (s.deqs ++ [u]) ++ rest
      rw [h5, hq, List.append_assoc]
      rfl
    · rw [if_neg hv]
      cases hf : fetch u with
      | none =>
        refine ⟨?_, ?_, ?_, h4, ?_, h6, h7⟩
        · show s.visited ++ [u] = s.attempts ++ [u]
          rw [h1]
        · show (s.visited ++ [u]).Nodup
          simp [List.nodup_append, h2, hv]
        · show s.scraped ≤ (s.attempts ++ [u]).length
          simp only [List.length_append, List.length_cons, List.length_nil]
          omega
        · show s.enqs = (s.deqs ++ [u]) ++ rest
          rw [h5, hq, List.append_assoc]
          rfl
      | some p =>
        refine crawlSuccess_inv ⟨?_, ?_, ?_, ?_, ?_, ?_, ?_⟩
        · show s.visited ++ [u] = s.attempts ++ [u]
          rw [h1]
        · show (s.visited ++ [u]).Nodup
          simp [List.nodup_append, h2, hv]
        · show s.scraped + 1 ≤ (s.attempts ++ [u]).length
          simp only [List.length_append, List.length_cons, List.length_nil]
          omega
        · show s.scraped + 1 ≤ mp
          omega
        · show s.enqs = (s.deqs ++ [u]) ++ rest
          rw [h5, hq, List.append_assoc]
          rfl
        · rw [processPage_emails]
          split
          · exact insertAll_nodup _ _ h6
          · exact h6
        · rw [processPage_phones]
          split
          · exact insertAll_nodup _ _ h7
          · exact h7

theorem crawlGo_inv (fetch : Str → Option Page) (mp : Nat) :
    ∀ (f : Nat) (s : CrawlState), CrawlInv mp s → CrawlInv mp (crawlGo fetch mp f s)
  | 0, _, h => h
  | Nat.succ f, s, h => by
    rw [crawlGo]
    split
    · next hg => exact crawlGo_inv fetch mp f _ (crawlStep_inv h hg.2)
    · exact h

theorem crawlInit_inv (mp : Nat) (b n : Str) : CrawlInv mp (crawlInit b n) := by
  refine ⟨rfl, ?_, ?_, ?_, rfl, ?_, ?_⟩ <;> simp [crawlInit]

theorem crawlRun_inv (fetch : Str → Option Page) (mp : Nat) (b n : Str) :
    CrawlInv mp (crawlRun fetch mp b n) :=
  crawlGo_inv fetch mp _ _ (crawlInit_inv mp b n)

theorem crawlStep_untouched {fetch : Str → Option Page} {mp : Nat} {s : CrawlState}
    (hfail : ∀ u, fetch u = none) (h : Untouched s) : Untouched (crawlStep fetch mp s) := by
  cases hq : s.queue with
  | nil => simp only [crawlStep, hq]; exact h
  | cons u rest =>
    simp only [crawlStep, hq]
    by_cases hv : u ∈ s.visited
    · rw [if_pos hv]; exact h
    · rw [if_neg hv, hfail u]; exact h

theorem crawlGo_untouched {fetch : Str → Option Page} {mp : Nat}
    (hfail : ∀ u, fetch u = none) :
    ∀ (f : Nat) (s : CrawlState), Untouched s → Untouched (crawlGo fetch mp f s)
  | 0, _, h => h
  | Nat.succ f, s, h => by
    rw [crawlGo]
    split
    · exact crawlGo_untouched hfail f _ (crawlStep_untouched hfail h)
    · exact h

theorem aboutFold_le (cands : List Str) :
    ∀ stored : Str, stored.length ≤ 500 → (∀ c ∈ cands, c.length ≤ 500) →
      cands.foldl aboutUpdate stored =
        cands.foldl (fun acc c => if acc.length < c.length then c else acc) stored := by
  induction cands with
  | nil => intro stored _ _; rfl
  | cons c cs ih =>
    intro stored hst hall
    have hc : c.length ≤ 500 := hall c (List.mem_cons_self c cs)
    have hstep : aboutUpdate stored c =
        if stored.length < c.length then c else stored := by
      by_cases hl : stored.length < c.length
      · have hne : c ≠ [] := by
          intro he
          rw [he] at hl
          simp at hl
        simp [aboutUpdate, hne, hl, List.take_of_length_le hc]
      · simp [aboutUpdate, hl]
    simp only [List.foldl_cons, hstep]
    by_cases hl : stored.length < c.length
    · rw [if_pos hl]
      exact ih c hc (fun d hd => hall d (List.mem_cons_of_mem _ hd))
    · rw [if_neg hl]
      exact ih stored hst (fun d hd => hall d (List.mem_cons_of_mem _ hd))

theorem crawlSuccess_about (mp : Nat) (u : Str) (p : Page) (sm : CrawlState) :
    (crawlSuccess mp u p sm).about = (processPage u p sm).about := by
  simp only [crawlSuccess]
  split <;> rfl

/-! ## Claim theorems -/

/-- C1 (amended): at termination of every crawl of `scrape_company_deep`, the
visited set is exactly the duplicate-free list of attempted (fetched) URLs —
so its size equals the number of pages attempted — and `pages_scraped` never
exceeds the number of attempts nor `max_pages`.  The claim's further bound
`pages_attempted ≤ max_pages` fails on the code (see the counterexample):
only successful fetches count against the budget. -/
theorem C1_visited_counts (fetch : Str → Option Page) (mp : Nat) (base name : Str) :
    (crawlRun fetch mp base name).visited = (crawlRun fetch mp base name).attempts ∧
    (crawlRun fetch mp base name).visited.Nodup ∧
    (crawlRun fetch mp base name).scraped ≤ (crawlRun fetch mp base name).attempts.length ∧
    (crawlRun fetch mp base name).scraped ≤ mp := by
  obtain ⟨h1, h2, h3, h4, _, _, _⟩ := crawlRun_inv fetch mp base name
  exact ⟨h1, h2, h3, h4⟩

/-- C1, counterexample to `pages_attempted ≤ max_pages`: with `max_pages = 2`,
a seed page carrying five internal links all of which fail to fetch, the
crawl attempts (and visits) 6 pages. -/
theorem C1_counterexample :
    (scrape_company_deep fetchC1 noFind "s".data "n".data "d".data 2).pagesVisited.length = 6 ∧
    ¬ ((scrape_company_deep fetchC1 noFind "s".data "n".data "d".data 2).pagesVisited.length ≤ 2) := by
  decide

/-- C2 (amended): for every document, base URL, limit and every iteration
order `enum` of the collected internal-link set, `get_internal_links` returns
the priority links followed by the non-priority links, each class kept in the
set-iteration order and the whole truncated to the limit; in particular every
priority link in the result precedes every non-priority link.  The claim's
discovery-order tie-break fails: the within-class order is the Python set's
iteration order (see the counterexample). -/
theorem C2_priority_partition (anchors : List Href) (base : Url) (limit : Nat)
    (enum : List Str) (henum : enum.Perm (linkSet anchors base)) :
    get_internal_links enum limit
      = (enum.filter isPriorityLink ++ enum.filter (fun l => !isPriorityLink l)).take limit ∧
    (get_internal_links enum limit).length ≤ limit ∧
    (get_internal_links enum limit).Pairwise
      (fun a b => isPriorityLink b = true → isPriorityLink a = true) := by
  have heq : get_internal_links enum limit
      = (enum.filter isPriorityLink ++ enum.filter (fun l => !isPriorityLink l)).take limit := by
    rw [get_internal_links, partitionLinks_eq]
  refine ⟨heq, ?_, ?_⟩
  · rw [heq, List.length_take]
    exact Nat.min_le_left _ _
  · have hP : ∀ a ∈ enum.filter isPriorityLink, isPriorityLink a = true :=
      fun a ha => (List.mem_filter.mp ha).2
    have hO : ∀ a ∈ enum.filter (fun l => !isPriorityLink l), ¬ isPriorityLink a = true := by
      intro a ha
      have hb := (List.mem_filter.mp ha).2
      simp only [Bool.not_eq_true'] at hb
      simp [hb]
    have hPO : (enum.filter isPriorityLink ++ enum.filter (fun l => !isPriorityLink l)).Pairwise
        (fun a b => isPriorityLink b = true → isPriorityLink a = true) := by
      rw [List.pairwise_append]
      refine ⟨List.pairwise_of_forall_mem_list (fun a ha _ _ _ => hP a ha),
              List.pairwise_of_forall_mem_list (fun _ _ b hb hbp => absurd hbp (hO b hb)),
              fun a ha _ _ _ => hP a ha⟩
    rw [heq]
    exact List.Pairwise.sublist (List.take_sublist _ _) hPO

/-- C2, witness for the amended theorem at a concrete document and a concrete
set-iteration order. -/
theorem C2_witness :
    get_internal_links enumC2 10
      = (enumC2.filter isPriorityLink ++ enumC2.filter (fun l => !isPriorityLink l)).take 10 ∧
    (get_internal_links enumC2 10).length ≤ 10 ∧
    (get_internal_links enumC2 10).Pairwise
      (fun a b => isPriorityLink b = true → isPriorityLink a = true) :=
  C2_priority_partition anchorsC2 baseC2 10 enumC2 (by decide)

/-- C2, counterexample to the discovery-order tie-break: a valid iteration
order of the two-link set reverses the anchor-discovery order and produces a
different output list. -/
theorem C2_counterexample :
    enumC2.Perm (linkSet anchorsC2 baseC2) ∧
    get_internal_links enumC2 10 ≠ get_internal_links_spec anchorsC2 baseC2 10 := by
  decide

theorem if_nest (b c : Prop) [Decidable b] [Decidable c] :
    (if b then (if c then (15 : Nat) else 5) else 0)
      = if b ∧ c then 15 else if b then 5 else 0 := by
  by_cases hb : b <;> by_cases hc : c <;> simp [hb, hc]

/-- C3: `calculate_seo_score` coincides with the spec's fixed-weight rubric
on every metadata struct, and the spec's example struct (title length 45,
description length 140, HTTPS, viewport, one H1, all images alt-covered, one
structured-data type, one Open Graph tag, 350 words, two internal links)
scores exactly 100. -/
theorem C3_seo_score_rubric :
    (∀ d : SeoData, calculate_seo_score d = seoRubric d) ∧
    calculate_seo_score exSeo = 100 := by
  refine ⟨?_, by decide⟩
  intro d
  simp only [calculate_seo_score, seoRubric]
  rw [if_nest, if_nest]

/-- C4: the crawl deque of `scrape_company_deep` is strictly FIFO: at
termination the enqueue trace is the dequeue trace followed by the residual
queue, so the dequeued URLs are exactly the first enqueued ones in enqueue
order — a URL enqueued while processing page N is never dequeued before any
URL that was already queued. -/
theorem C4_fifo_order (fetch : Str → Option Page) (mp : Nat) (base name : Str) :
    (crawlRun fetch mp base name).enqs
      = (crawlRun fetch mp base name).deqs ++ (crawlRun fetch mp base name).queue ∧
    (crawlRun fetch mp base name).deqs
      = (crawlRun fetch mp base name).enqs.take (crawlRun fetch mp base name).deqs.length := by
  obtain ⟨_, _, _, _, h5, _, _⟩ := crawlRun_inv fetch mp base name
  refine ⟨h5, ?_⟩
  rw [h5, List.take_left]

/-- C5: on a fetch failure the crawl marks the URL visited and attempted,
advances to the next queued URL, and leaves the scraped counter — hence the
remaining page budget — unchanged; the loop terminates exactly when the queue
empties or the scraped count reaches `max_pages`; and no URL is ever fetched
twice in a crawl (the attempts list is duplicate-free). -/
theorem C5_fetch_failure :
    (∀ (fetch : Str → Option Page) (mp : Nat) (s : CrawlState) (u : Str) (rest : List Str),
      s.queue = u :: rest → u ∉ s.visited → fetch u = none →
        crawlStep fetch mp s =
          { s with queue := rest, deqs := s.deqs ++ [u],
                   visited := s.visited ++ [u], attempts := s.attempts ++ [u] }) ∧
    (∀ (fetch : Str → Option Page) (mp f : Nat) (s : CrawlState),
      ¬ (s.queue ≠ [] ∧ s.scraped < mp) → crawlGo fetch mp f s = s) ∧
    (∀ (fetch : Str → Option Page) (mp : Nat) (base name : Str),
      (crawlRun fetch mp base name).attempts.Nodup) := by
  refine ⟨?_, ?_, ?_⟩
  · intro fetch mp s u rest hq hv hf
    simp only [crawlStep, hq]
    rw [if_neg hv, hf]
  · intro fetch mp f s hg
    cases f with
    | zero => rfl
    | succ f => rw [crawlGo, if_neg hg]
  · intro fetch mp base name
    obtain ⟨h1, h2, _, _, _, _, _⟩ := crawlRun_inv fetch mp base name
    exact h1 ▸ h2

/-- C5, witness: a concrete failing fetch on the queued URL `"u"`, and the
duplicate-freeness of the attempts of a concrete all-failing crawl. -/
theorem C5_witness :
    crawlStep (fun _ => none) 3 stC5 =
      { stC5 with queue := [], deqs := stC5.deqs ++ ["u".data],
                  visited := stC5.visited ++ ["u".data],
                  attempts := stC5.attempts ++ ["u".data] } ∧
    (crawlRun (fun _ => none) 3 "u".data "n".data).attempts.Nodup :=
  ⟨C5_fetch_failure.1 (fun _ => none) 3 stC5 "u".data [] rfl (by decide) rfl,
   C5_fetch_failure.2.2 (fun _ => none) 3 "u".data "n".data⟩

/-- C6 (amended): the about-candidate update replaces the stored text exactly
when the candidate is nonempty and longer than the *currently stored,
already-truncated* text (not longer than every raw candidate seen — see the
counterexample); consequently, when no candidate exceeds the 500-character
budget, the accumulated About text is precisely the longest (first among
equals) candidate seen. -/
theorem C6_about_retention :
    (∀ stored cand : Str,
      aboutUpdate stored cand =
        if cand ≠ [] ∧ stored.length < cand.length then cand.take 500 else stored) ∧
    (∀ cands : List Str, (∀ c ∈ cands, c.length ≤ 500) →
      cands.foldl aboutUpdate naStr = longestCand cands) := by
  refine ⟨fun _ _ => rfl, ?_⟩
  intro cands hall
  rw [longestCand]
  exact aboutFold_le cands naStr (by decide) hall

/-- C6, witness: concrete candidate lists evaluated through the theorem. -/
theorem C6_witness :
    ["ab".data, "abcd".data].foldl aboutUpdate naStr = longestCand ["ab".data, "abcd".data] :=
  C6_about_retention.2 _ (by decide)

/-- C6, counterexample to "About holds the longest candidate (before
truncation)": after a 502-char candidate (stored truncated to 500) a 501-char
candidate still replaces it, so the final About is the truncation of the
*shorter* candidate, not of the longest one. -/
theorem C6_counterexample :
    (scrape_company_deep fetchC6 noFind "s".data "n".data "d".data 1).about
      = List.replicate 500 'b' ∧
    longestCand [c1s, c2s] = c1s ∧
    (scrape_company_deep fetchC6 noFind "s".data "n".data "d".data 1).about
      ≠ (longestCand [c1s, c2s]).take 500 := by
  decide

/-- C7: for every document whose absolute anchors carry a nonempty netloc,
every URL returned by `get_internal_links` (under any set-iteration order)
originates from some anchor that is either relative or absolute with the same
netloc as the base URL — no off-domain absolute link is ever returned. -/
theorem C7_domain_restriction (anchors : List Href) (base : Url) (limit : Nat)
    (enum : List Str) (henum : enum.Perm (linkSet anchors base))
    (hwf : ∀ h ∈ anchors, h.absNetlocNonempty) :
    ∀ v ∈ get_internal_links enum limit,
      ∃ h, h ∈ anchors ∧ urlStr (resolve base h) = v ∧
        (h.isRel ∨ (resolve base h).netloc = base.netloc) := by
  intro v hv
  have heq : get_internal_links enum limit
      = (enum.filter isPriorityLink ++ enum.filter (fun l => !isPriorityLink l)).take limit := by
    rw [get_internal_links, partitionLinks_eq]
  rw [heq] at hv
  have hv1 := (List.take_sublist _ _).mem hv
  have hv2 : v ∈ enum := by
    rcases List.mem_append.mp hv1 with hh | hh
    · exact (List.mem_filter.mp hh).1
    · exact (List.mem_filter.mp hh).1
  have hv3 : v ∈ linkSet anchors base := henum.mem_iff.mp hv2
  rw [linkSet, dedupFO_mem] at hv3
  obtain ⟨uu, huu, hstr⟩ := List.mem_map.mp hv3
  obtain ⟨hmem, hvalid⟩ := List.mem_filter.mp huu
  obtain ⟨h, hh, hres⟩ := List.mem_map.mp hmem
  refine ⟨h, hh, by rw [hres, hstr], ?_⟩
  have hnet : uu.netloc = base.netloc ∨ uu.netloc = [] := by
    rw [is_valid_internal_link] at hvalid
    simp only [Bool.and_eq_true, Bool.or_eq_true, beq_iff_eq] at hvalid
    exact hvalid.1.1
  cases h with
  | rel ph => exact Or.inl trivial
  | abs u2 =>
    right
    rcases hnet with hn | hn
    · rw [hres]
      exact hn
    · exfalso
      exact (hwf _ hh) ((congrArg Url.netloc hres).trans hn)

/-- C7, witness: a concrete document with one absolute same-domain anchor and
one relative anchor, instantiated at the returned absolute URL. -/
theorem C7_witness :
    ∃ h, h ∈ anchorsC7 ∧ urlStr (resolve baseC2 h) = urlStr uPC2 ∧
      (h.isRel ∨ (resolve baseC2 h).netloc = baseC2.netloc) :=
  C7_domain_restriction anchorsC7 baseC2 10 (linkSet anchorsC7 baseC2)
    (List.Perm.refl _)
    (by
      intro h hh
      simp only [anchorsC7, List.mem_cons, List.not_mem_nil, or_false] at hh
      rcases hh with rfl | rfl
      · show uPC2.netloc ≠ []
        decide
      · trivial)
    (urlStr uPC2) (by decide)

/-- C8: a crawl in which every fetch fails still returns (it is a total
function of the oracle) a record with zero pages scraped and the `"N/A"`
placeholder in the About, Services, Products, Clients, Team, Emails, Phones,
Address and Social Media fields. -/
theorem C8_empty_crawl (fetch : Str → Option Page) (find : Str → Str → List Str)
    (base name source : Str) (mp : Nat) (hfail : ∀ u, fetch u = none) :
    (scrape_company_deep fetch find base name source mp).pagesScraped = 0 ∧
    (scrape_company_deep fetch find base name source mp).about = naStr ∧
    (scrape_company_deep fetch find base name source mp).services = naStr ∧
    (scrape_company_deep fetch find base name source mp).products = naStr ∧
    (scrape_company_deep fetch find base name source mp).clients = naStr ∧
    (scrape_company_deep fetch find base name source mp).teamInfo = naStr ∧
    (scrape_company_deep fetch find base name source mp).emailsField = naStr ∧
    (scrape_company_deep fetch find base name source mp).phonesField = naStr ∧
    (scrape_company_deep fetch find base name source mp).address = naStr ∧
    (scrape_company_deep fetch find base name source mp).socialMedia = naStr := by
  obtain ⟨t1, t2, t3, t4, t5, t6, t7, t8, t9, t10⟩ :=
    crawlGo_untouched hfail (crawlFuel mp) (crawlInit base name)
      ⟨rfl, rfl, rfl, rfl, rfl, rfl, rfl, rfl, rfl, rfl⟩
  simp only [scrape_company_deep, finalize, crawlRun] at *
  refine ⟨t1, t7, ?_, t8, t9, t10, ?_, ?_, ?_, ?_⟩
  · rw [t5]
    simp
  · rw [t2]
    simp
  · rw [t3]
    simp
  · rw [t6]
  · rw [t4]
    simp [socialMerge]

/-- C8, witness: the all-failing oracle with a page budget of 5. -/
theorem C8_witness :
    (scrape_company_deep (fun _ => none) noFind "s".data "n".data "d".data 5).pagesScraped = 0 ∧
    (scrape_company_deep (fun _ => none) noFind "s".data "n".data "d".data 5).about = naStr ∧
    (scrape_company_deep (fun _ => none) noFind "s".data "n".data "d".data 5).services = naStr ∧
    (scrape_company_deep (fun _ => none) noFind "s".data "n".data "d".data 5).products = naStr ∧
    (scrape_company_deep (fun _ => none) noFind "s".data "n".data "d".data 5).clients = naStr ∧
    (scrape_company_deep (fun _ => none) noFind "s".data "n".data "d".data 5).teamInfo = naStr ∧
    (scrape_company_deep (fun _ => none) noFind "s".data "n".data "d".data 5).emailsField = naStr ∧
    (scrape_company_deep (fun _ => none) noFind "s".data "n".data "d".data 5).phonesField = naStr ∧
    (scrape_company_deep (fun _ => none) noFind "s".data "n".data "d".data 5).address = naStr ∧
    (scrape_company_deep (fun _ => none) noFind "s".data "n".data "d".data 5).socialMedia = naStr :=
  C8_empty_crawl (fun _ => none) noFind "s".data "n".data "d".data 5 (fun _ => rfl)

/-- C9: the listed Emails/Phones entries are the first five elements of the
deduplicated accumulator (so at most 5), while `Total Emails Found` /
`Total Phones Found` report the full deduplicated counts; a concrete crawl
extracting six distinct emails lists 5 yet reports a total of 6. -/
theorem C9_contact_truncation :
    (∀ (fetch : Str → Option Page) (mp : Nat) (base name : Str),
      (emailsListed (crawlRun fetch mp base name)).length ≤ 5 ∧
      (phonesListed (crawlRun fetch mp base name)).length ≤ 5 ∧
      (crawlRun fetch mp base name).emails.Nodup ∧
      (crawlRun fetch mp base name).phones.Nodup) ∧
    (∀ (fetch : Str → Option Page) (find : Str → Str → List Str)
       (base name source : Str) (mp : Nat),
      (scrape_company_deep fetch find base name source mp).totalEmails
        = (crawlRun fetch mp base name).emails.length ∧
      (scrape_company_deep fetch find base name source mp).totalPhones
        = (crawlRun fetch mp base name).phones.length) ∧
    ((scrape_company_deep fetchC9 noFind "s".data "n".data "d".data 1).totalEmails = 6 ∧
     (emailsListed (crawlRun fetchC9 1 "s".data "n".data)).length = 5) := by
  refine ⟨?_, fun _ _ _ _ _ _ => ⟨rfl, rfl⟩, by decide⟩
  intro fetch mp base name
  obtain ⟨_, _, _, _, _, h6, h7⟩ := crawlRun_inv fetch mp base name
  refine ⟨?_, ?_, h6, h7⟩
  · rw [emailsListed, List.length_take]
    exact Nat.min_le_left _ _
  · rw [phonesListed, List.length_take]
    exact Nat.min_le_left _ _

/-- C10: a page fetched successfully while the scraped counter is still zero
— i.e. the first successfully scraped page — is processed under the
about-extraction rules regardless of its URL; a later page whose URL does not
contain `about` leaves the About field untouched. -/
theorem C10_first_page_about :
    (∀ (fetch : Str → Option Page) (mp : Nat) (s : CrawlState) (u : Str)
       (rest : List Str) (p : Page),
      s.queue = u :: rest → u ∉ s.visited → fetch u = some p → s.scraped = 0 →
      (crawlStep fetch mp s).about = p.aboutTexts.foldl aboutUpdate s.about) ∧
    (∀ (fetch : Str → Option Page) (mp : Nat) (s : CrawlState) (u : Str)
       (rest : List Str) (p : Page),
      s.queue = u :: rest → u ∉ s.visited → fetch u = some p → 1 ≤ s.scraped →
      hasSub "about".data (pyLower u) = false →
      (crawlStep fetch mp s).about = s.about) := by
  constructor
  · intro fetch mp s u rest p hq hv hf h0
    simp only [crawlStep, hq]
    rw [if_neg hv]
    simp only [hf]
    rw [crawlSuccess_about, processPage_about]
    simp [h0]
  · intro fetch mp s u rest p hq hv hf h1 habout
    simp only [crawlStep, hq]
    rw [if_neg hv]
    simp only [hf]
    rw [crawlSuccess_about, processPage_about]
    simp only [habout]
    have hcond : ¬ ((false : Bool) = true ∨ s.scraped + 1 = 1) := by
      simp only [Bool.false_eq_true, false_or]
      omega
    rw [if_neg hcond]

/-- C10, witness: the URL `"u"` (no `about` substring) is processed under the
about rules when it is the first success, and skipped once a page has already
been scraped. -/
theorem C10_witness :
    (crawlStep fetchC10 3 stC10a).about
      = pgC10.aboutTexts.foldl aboutUpdate stC10a.about ∧
    (crawlStep fetchC10 3 stC10b).about = stC10b.about :=
  ⟨C10_first_page_about.1 fetchC10 3 stC10a "u".data [] pgC10 rfl (by decide) rfl rfl,
   C10_first_page_about.2 fetchC10 3 stC10b "u".data [] pgC10 rfl (by decide) rfl
     (by decide) (by decide)⟩

end WebScrap
